import Mathlib

/-
Verification of the Iris face-attendance client.

Shallow embedding of the core logic of `src/facerec/client/program.py`
(and the mirrored attendance toggle of `src/facerec/app/api.py`):

* the per-detection-slot temporal vote buffer (lines 455, 508-517),
* the identity decision `decide_identity` (lines 360-377),
* the unknown-face fingerprint `encoding_fingerprint` (lines 182-184),
  together with a bit-exact model of IEEE-754 binary32 encoding and SHA-1,
* the attendance toggle `_toggle_attendance_for_today_direct`
  (lines 136-177; `api.py` lines 296-337 are the same logic),
* the per-entity debounce gate `_debounced` and the notify functions
  (lines 395-439),
* the per-entity presence state machine of the main loop (lines 525-624);
  the known-entity path (lines 529-576) is modelled, the unknown-entity
  path (lines 579-624) is structurally identical.

Timestamps and float quantities are modelled as rationals; wall-clock
floats never overflow in the ranges involved.  `0` is the sentinel value
the source uses for "unset" timestamp fields.
-/

/- ===================== Voter (program.py lines 455, 508-517) ===================== -/

/-- `vote_buffers[idx].append(candidate)` on a `deque(maxlen := w)`: append on the
right, evicting from the left when the buffer already holds `w` entries. -/
def pushVote (w : ℕ) (buf : List String) (cand : String) : List String :=
  let b := buf ++ [cand]
  b.drop (b.length - w)

/-- Order of first occurrence of each distinct label in the buffer: the key order
of the Python `counts` dict, which is built by scanning the buffer left to right. -/
def firstOccs : List String → List String
  | [] => []
  | x :: xs => x :: (firstOccs xs).filter (fun y => y ≠ x)

/-- The `counts` dict as an association list in key-insertion order. -/
def voteCounts (buf : List String) : List (String × ℕ) :=
  (firstOccs buf).map (fun n => (n, buf.count n))

/-- Python's `max(counts.items(), key=lambda kv: kv[1])`: scans left to right and
replaces the running maximum only on a strictly greater count, so the first
maximal entry wins. -/
def pyMaxSnd (l : List (String × ℕ)) : String × ℕ :=
  match l with
  | [] => ("", 0)
  | p :: rest => rest.foldl (fun acc q => if acc.2 < q.2 then q else acc) p

/-- One voting step (lines 508-516): push the candidate, compute the mode, and
return the stabilized label: the mode if it is not `Unknown` and its count
reaches `req` (`VOTES_REQUIRED`), else `Unknown`. -/
def voteStep (w req : ℕ) (buf : List String) (cand : String) : List String × String :=
  let b := pushVote w buf cand
  let m := pyMaxSnd (voteCounts b)
  (b, if m.1 ≠ "Unknown" ∧ req ≤ m.2 then m.1 else "Unknown")

/-- Feed a whole candidate sequence through one detection slot's buffer, starting
from an empty buffer, returning the final buffer and last stabilized label. -/
def voteFeed (w req : ℕ) (cands : List String) : List String × String :=
  cands.foldl (fun acc c => voteStep w req acc.1 c) ([], "Unknown")

/- ===================== Attendance toggle (program.py 136-177, api.py 296-337) ===================== -/

/-- One `attendance` row, as selected/updated by the toggle. -/
structure AttendanceRow where
  date : String
  student_id : String
  check_in_at : Option String
  check_out_at : Option String
  status : String
  visits : ℤ
  last_seen_at : String
deriving DecidableEq, Repr

/-- Python's `str.lower()` on ASCII data: lower-case every character. -/
def lowerStr (s : String) : String := String.mk (s.data.map Char.toLower)

/-- Python truthiness test `not row.get("check_out_at")`: the column is falsy when
it is NULL or the empty string. -/
def falsyStr : Option String → Bool
  | none => true
  | some s => s.isEmpty

/-- `_toggle_attendance_for_today_direct` (program.py lines 136-177); the server
side `_toggle_attendance_for_today` (api.py lines 296-337) is the same logic.
`existing` is the row selected for `(student_id, today)`, if any. -/
def toggle_attendance_for_today_direct (today iso student_id : String)
    (existing : Option AttendanceRow) : AttendanceRow :=
  match existing with
  | none =>
      { date := today, student_id := student_id, check_in_at := some iso,
        check_out_at := none, status := "checked-in", visits := 1, last_seen_at := iso }
  | some row =>
      let status := lowerStr (if row.status.isEmpty then "absent" else row.status)
      if status = "checked-in" ∧ falsyStr row.check_out_at = true then
        { row with check_out_at := some iso, status := "checked-out",
                   visits := row.visits + 1, last_seen_at := iso }
      else
        { row with check_in_at := some iso, check_out_at := none, status := "checked-in",
                   visits := row.visits + 1, last_seen_at := iso }

/- ===================== Gateway + debounce (program.py 395-439) ===================== -/

/-- Outcome of the body of `notify_seen_known` / `notify_seen_unknown` once the
debounce gate has been passed: the directory lookup can miss (known path,
`return False, None` without a DB write), the Supabase write can raise
(caught, `return False, None`), or the toggle succeeds and yields a status. -/
inductive GwOutcome
  | lookupMiss
  | dbError
  | success (status : Option String)
deriving DecidableEq, Repr

/-- Whether the outcome makes `notify_seen_*` return `True`. -/
def GwOutcome.ok : GwOutcome → Bool
  | .success _ => true
  | _ => false

/-- The status string the outcome makes `notify_seen_*` return. -/
def GwOutcome.status : GwOutcome → Option String
  | .success s => s
  | _ => none

/-- Whether an attendance-table write was attempted under this outcome. -/
def GwOutcome.isWrite : GwOutcome → Bool
  | .lookupMiss => false
  | _ => true

/-- Observable effect of one `notify_seen_known` / `notify_seen_unknown` call. -/
structure NotifyOut where
  ok : Bool
  status : Option String
  lastEvent : ℚ
  wroteAttempt : Bool
deriving DecidableEq, Repr

/-- `notify_seen_known` / `notify_seen_unknown` (lines 403-439): first the
`_debounced` gate (lines 395-401), which refuses when less than `D`
(`EVENT_DEBOUNCE_SEC`) has passed since `_last_event_at[key]` and otherwise
stamps `_last_event_at[key] := now` BEFORE the gateway is contacted; then the
gateway body, whose outcome is `gw`. -/
def notify_seen (D lastEvent now : ℚ) (gw : GwOutcome) : NotifyOut :=
  if now - lastEvent < D then ⟨false, none, lastEvent, false⟩
  else ⟨gw.ok, gw.status, now, gw.isWrite⟩

/- ===================== Presence state machine (program.py 525-624) ===================== -/

/-- The anti-flap timing knobs (env-overridable, lines 43-46). -/
structure Config where
  appear_sustain : ℚ
  absence_grace : ℚ
  event_debounce : ℚ
  min_session : ℚ
deriving DecidableEq, Repr

/-- The default values: `APPEAR_SUSTAIN_SEC = 0.8`, `ABSENCE_GRACE_SEC = 2.0`,
`EVENT_DEBOUNCE_SEC = 3.0`, `MIN_SESSION_SEC = 15.0`. -/
def defaultConfig : Config := ⟨4/5, 2, 3, 15⟩

/-- `PresenceState` (lines 382-389); `0` is the source's sentinel for unset. -/
structure PresenceState where
  present : Bool := false
  first_seen_ts : ℚ := 0
  last_seen_ts : ℚ := 0
  entered_at : ℚ := 0
  last_toggle_at : ℚ := 0
  missing_since : ℚ := 0
deriving DecidableEq, Repr

/-- Everything the process keeps for one entity key: its `presence_known` /
`presence_unknown` entry (if any) and its `_last_event_at` stamp
(`.get(key, 0.0)` when absent). -/
structure EntityState where
  ps : Option PresenceState
  lastEvent : ℚ
deriving DecidableEq, Repr

/-- A confirmed attendance transition. -/
inductive Event
  | checkIn
  | checkOut
deriving DecidableEq, Repr

/-- Result of one of the two per-entity loop bodies within a frame. -/
structure StepOut where
  ps : Option PresenceState
  lastEvent : ℚ
  event : Option Event
  attempts : ℕ
deriving DecidableEq, Repr

/-- The seen branch (lines 529-550): refresh `last_seen_ts`, clear
`missing_since`, open the entering window if needed, and attempt a check-in
when the sustain and per-state debounce windows are satisfied. -/
def seenStep (cfg : Config) (es : EntityState) (now : ℚ) (gw : GwOutcome) : StepOut :=
  let st0 := es.ps.getD {}
  let st1 := { st0 with last_seen_ts := now, missing_since := 0 }
  if st1.present then ⟨some st1, es.lastEvent, none, 0⟩
  else
    let st2 := if st1.first_seen_ts = 0 then { st1 with first_seen_ts := now } else st1
    if cfg.appear_sustain ≤ now - st2.first_seen_ts ∧
        cfg.event_debounce ≤ now - st2.last_toggle_at then
      let r := notify_seen cfg.event_debounce es.lastEvent now gw
      if r.ok then
        ⟨some { st2 with present := true, entered_at := now, last_toggle_at := now },
         r.lastEvent, some Event.checkIn, if r.wroteAttempt then 1 else 0⟩
      else ⟨some st2, r.lastEvent, none, if r.wroteAttempt then 1 else 0⟩
    else ⟨some st2, es.lastEvent, none, 0⟩

/-- The maintenance loop body (lines 553-576) for one entity: possible check-out
when present and not seen, cancellation of the leaving window when present and
seen, and staleness eviction of never-confirmed (`present = false`) entries. -/
def maintainStep (cfg : Config) (st : PresenceState) (le now : ℚ) (seen : Bool)
    (gw : GwOutcome) : StepOut :=
  if st.present then
    if seen then ⟨some { st with missing_since := 0 }, le, none, 0⟩
    else
      let st1 := if st.missing_since = 0 then { st with missing_since := now } else st
      if cfg.absence_grace ≤ now - st1.missing_since ∧
          cfg.min_session ≤ now - st1.entered_at ∧
          cfg.event_debounce ≤ now - st1.last_toggle_at then
        let r := notify_seen cfg.event_debounce le now gw
        if r.ok then
          let st2 := { st1 with
            present := false
            first_seen_ts := 0
            entered_at := 0
            last_toggle_at := now
            missing_since := 0 }
          ⟨some st2, r.lastEvent, some Event.checkOut, if r.wroteAttempt then 1 else 0⟩
        else ⟨some st1, r.lastEvent, none, if r.wroteAttempt then 1 else 0⟩
      else ⟨some st1, le, none, 0⟩
  else
    if st.first_seen_ts ≠ 0 ∧
        cfg.absence_grace * 3 < now - max st.first_seen_ts st.last_seen_ts then
      ⟨none, le, none, 0⟩
    else ⟨some st, le, none, 0⟩

/-- Aggregate per-frame observable for one entity key. -/
structure TickOut where
  es : EntityState
  event : Option Event
  attempts : ℕ
deriving DecidableEq, Repr

/-- The whole effect of one frame of the main loop on a single entity key:
when the entity is in this frame's seen set, the check-in loop (529-550) runs
and inserts the state into the mapping, then the maintenance loop (553-576)
runs on the inserted entry; when it is not seen, only the maintenance loop
runs, and only if the mapping already holds an entry for the key. -/
def tickEntity (cfg : Config) (es : EntityState) (now : ℚ) (seen : Bool)
    (gw : GwOutcome) : TickOut :=
  if seen then
    let s := seenStep cfg es now gw
    match s.ps with
    | none => ⟨⟨none, s.lastEvent⟩, s.event, s.attempts⟩
    | some st =>
      let m := maintainStep cfg st s.lastEvent now true gw
      ⟨⟨m.ps, m.lastEvent⟩,
       (match s.event with | some e => some e | none => m.event),
       s.attempts + m.attempts⟩
  else
    match es.ps with
    | none => ⟨es, none, 0⟩
    | some st =>
      let m := maintainStep cfg st es.lastEvent now false gw
      ⟨⟨m.ps, m.lastEvent⟩, m.event, m.attempts⟩

/-- One frame's input for a single entity: the frame time, whether the entity is
in the frame's seen set, and how the gateway would respond if contacted. -/
structure TickIn where
  now : ℚ
  seen : Bool
  gw : GwOutcome
deriving DecidableEq, Repr

/-- Run a sequence of frames for one entity, collecting the confirmed
transitions with the frame times at which they fired. -/
def runEntity (cfg : Config) : EntityState → List TickIn → EntityState × List (ℚ × Event)
  | es, [] => (es, [])
  | es, i :: rest =>
    let t := tickEntity cfg es i.now i.seen i.gw
    let (esf, evs) := runEntity cfg t.es rest
    (esf, (match t.event with | some e => [(i.now, e)] | none => []) ++ evs)

/-- The timing guard of the check-in transition (line 543), on a state already in
the entering window (`first_seen_ts` set). -/
abbrev checkinTiming (cfg : Config) (ps : PresenceState) (now : ℚ) : Prop :=
  ps.present = false ∧ ps.first_seen_ts ≠ 0 ∧
  cfg.appear_sustain ≤ now - ps.first_seen_ts ∧ cfg.event_debounce ≤ now - ps.last_toggle_at

/-- The timing guard of the check-out transition (lines 559-561), on a state
already in the leaving window (`missing_since` set). -/
abbrev checkoutTiming (cfg : Config) (ps : PresenceState) (now : ℚ) : Prop :=
  ps.present = true ∧ ps.missing_since ≠ 0 ∧
  cfg.absence_grace ≤ now - ps.missing_since ∧ cfg.min_session ≤ now - ps.entered_at ∧
  cfg.event_debounce ≤ now - ps.last_toggle_at

/- ===================== Identifier (program.py 357-377) ===================== -/

/-- `np.linalg.norm(a - b)`: Euclidean distance between embedding vectors. -/
noncomputable def vdist (a b : List ℝ) : ℝ :=
  Real.sqrt (((a.zip b).map (fun p => (p.1 - p.2) ^ 2)).sum)

/-- `min(np.linalg.norm(enc - e) for e in known_faces[name])` (line 367); the
gallery invariant gives every label at least one embedding, so the empty case is
junk and never reached. -/
noncomputable def dmin (enc : List ℝ) : List (List ℝ) → ℝ
  | [] => 0
  | e :: es => es.foldl (fun acc x => min acc (vdist enc x)) (vdist enc e)

/-- `0.5 * d_centroid + 0.5 * d_min` (lines 366-368). -/
noncomputable def labelDist (enc : List ℝ) (known_faces : String → List (List ℝ))
    (centroids : String → List ℝ) (name : String) : ℝ :=
  0.5 * vdist enc (centroids name) + 0.5 * dmin enc (known_faces name)

/-- The `dists` list built by the loop of lines 364-369. -/
noncomputable def distList (enc : List ℝ) (identities : List String)
    (known_faces : String → List (List ℝ)) (centroids : String → List ℝ) :
    List (String × ℝ) :=
  identities.map (fun name => (name, labelDist enc known_faces centroids name))

/-- `dists.sort(key=lambda x: x[1])` (line 371): stable ascending sort by distance. -/
noncomputable def sortedDists (enc : List ℝ) (identities : List String)
    (known_faces : String → List (List ℝ)) (centroids : String → List ℝ) :
    List (String × ℝ) :=
  (distList enc identities known_faces centroids).mergeSort (fun a b => decide (a.2 ≤ b.2))

open Classical in
/-- `decide_identity` (lines 360-377).  `math.inf` is modelled as `(⊤ : EReal)`,
so the returned distances live in `EReal`; all finite arithmetic matches the
source.  `TOLERANCE` and `GAP_MARGIN` are the env-overridable knobs of
lines 35-36 (defaults 0.50 and 0.10). -/
noncomputable def decide_identity (TOLERANCE GAP_MARGIN : ℝ) (enc : List ℝ)
    (identities : List String) (known_faces : String → List (List ℝ))
    (centroids : String → List ℝ) : String × EReal × EReal :=
  if identities = [] then ("Unknown", ⊤, ⊤)
  else
    let sorted := sortedDists enc identities known_faces centroids
    let best := sorted.headD ("Unknown", 0)
    let second : EReal := match sorted[1]? with
      | some p => (p.2 : EReal)
      | none => ⊤
    if best.2 > TOLERANCE ∨ second - (best.2 : EReal) < (GAP_MARGIN : EReal) then
      ("Unknown", (best.2 : EReal), second)
    else (best.1, (best.2 : EReal), second)

/- ===================== Fingerprinter (program.py 182-184) ===================== -/

/-- Round a rational to the nearest integer, ties to even (numpy's rounding). -/
def rnde (x : ℚ) : ℤ :=
  let f := ⌊x⌋
  if x - f < 1/2 then f
  else if 1/2 < x - f then f + 1
  else if 2 ∣ f then f else f + 1

/-- `np.round(x, 2)`: quantize to the nearest hundredth, ties to even. -/
def round2 (x : ℚ) : ℚ := (rnde (100 * x) : ℚ) / 100

/-- Structural base-2 integer logarithm: `ilog2Aux fuel n` is the floor of
`log2 n` whenever `n ≤ fuel` (and `1 ≤ n`). -/
def ilog2Aux : ℕ → ℕ → ℕ
  | 0, _ => 0
  | fuel + 1, n => if n ≤ 1 then 0 else ilog2Aux fuel (n / 2) + 1

/-- Floor of the base-2 logarithm of a natural number. -/
def ilog2 (n : ℕ) : ℕ := ilog2Aux n n

/-- The rational `2 ^ e` for an integer exponent `e`. -/
def pow2Q (e : ℤ) : ℚ :=
  if 0 ≤ e then mkRat (2 ^ e.toNat) 1 else mkRat 1 (2 ^ (-e).toNat)

/-- Largest `e` with `2 ^ e ≤ a`, for positive rational `a`. -/
def floorLog2 (a : ℚ) : ℤ :=
  let e0 : ℤ := (ilog2 a.num.toNat : ℤ) - (ilog2 a.den : ℤ)
  if pow2Q (e0 + 1) ≤ a then e0 + 1
  else if a < pow2Q e0 then e0 - 1
  else e0

/-- IEEE-754 binary32 bit pattern (as a natural number) of
`np.float32(np.round(x, 2))`: sign bit, biased exponent, rounded 24-bit
significand; numpy's rounding keeps the sign of zero, hence the `x < 0` test in
the zero case.  Exponent overflow to infinity cannot occur for the hundredth
grid values involved. -/
def f32bits (x : ℚ) : ℕ :=
  let q := round2 x
  if q = 0 then (if x < 0 then 2 ^ 31 else 0)
  else
    let s : ℕ := if q < 0 then 2 ^ 31 else 0
    let a : ℚ := |q|
    let e : ℤ := floorLog2 a
    if e ≤ -127 then s + (rnde (a * pow2Q 149)).toNat
    else
      let m : ℤ := rnde (a * pow2Q (23 - e))
      if m = 2 ^ 24 then s + (e + 128).toNat * 2 ^ 23
      else s + (e + 127).toNat * 2 ^ 23 + (m - 2 ^ 23).toNat

/-- Little-endian bytes of a 32-bit word (numpy is little-endian). -/
def bytesLE32 (n : ℕ) : List ℕ :=
  [n % 256, n / 256 % 256, n / 65536 % 256, n / 16777216 % 256]

/-- `v.tobytes()`: the concatenated little-endian float32 bytes of the quantized
embedding components. -/
def embBytes (v : List ℚ) : List ℕ := (v.map (fun x => bytesLE32 (f32bits x))).flatten

/-- Truncate to a 32-bit word. -/
def w32 (n : ℕ) : ℕ := n % 2 ^ 32

/-- Left-rotation of a 32-bit word by `s` places. -/
def rotl (s n : ℕ) : ℕ := w32 (n <<< s) ||| (w32 n >>> (32 - s))

/-- The SHA-1 round function. -/
def sha1F (t b c d : ℕ) : ℕ :=
  if t < 20 then (b &&& c) ||| ((b ^^^ (2 ^ 32 - 1)) &&& d)
  else if t < 40 then b ^^^ c ^^^ d
  else if t < 60 then (b &&& c) ||| (b &&& d) ||| (c &&& d)
  else b ^^^ c ^^^ d

/-- The SHA-1 round constants. -/
def sha1K (t : ℕ) : ℕ :=
  if t < 20 then 0x5A827999
  else if t < 40 then 0x6ED9EBA1
  else if t < 60 then 0x8F1BBCDC
  else 0xCA62C1D6

/-- The 16 big-endian 32-bit words of one 64-byte block. -/
def beWords (block : List ℕ) : List ℕ :=
  (List.range 16).map (fun i =>
    block.getD (4 * i) 0 * 16777216 + block.getD (4 * i + 1) 0 * 65536 +
      block.getD (4 * i + 2) 0 * 256 + block.getD (4 * i + 3) 0)

/-- Extend 16 message words to the 80 schedule words. -/
def extendW (ws : List ℕ) : List ℕ :=
  (List.range 64).foldl
    (fun acc _ =>
      let n := acc.length
      acc ++ [rotl 1 (acc.getD (n - 3) 0 ^^^ acc.getD (n - 8) 0 ^^^
        acc.getD (n - 14) 0 ^^^ acc.getD (n - 16) 0)])
    ws

/-- The SHA-1 initial chaining value. -/
def sha1Init : ℕ × ℕ × ℕ × ℕ × ℕ :=
  (0x67452301, 0xEFCDAB89, 0x98BADCFE, 0x10325476, 0xC3D2E1F0)

/-- One SHA-1 round. -/
def sha1Round (st : ℕ × ℕ × ℕ × ℕ × ℕ) (t wt : ℕ) : ℕ × ℕ × ℕ × ℕ × ℕ :=
  (w32 (rotl 5 st.1 + sha1F t st.2.1 st.2.2.1 st.2.2.2.1 + st.2.2.2.2 + sha1K t + wt),
   st.1, rotl 30 st.2.1, st.2.2.1, st.2.2.2.1)

/-- Compress one 64-byte block into the chaining value. -/
def sha1Block (h : ℕ × ℕ × ℕ × ℕ × ℕ) (block : List ℕ) : ℕ × ℕ × ℕ × ℕ × ℕ :=
  let ws := extendW (beWords block)
  let f := (List.range 80).foldl (fun st t => sha1Round st t (ws.getD t 0)) h
  (w32 (h.1 + f.1), w32 (h.2.1 + f.2.1), w32 (h.2.2.1 + f.2.2.1),
   w32 (h.2.2.2.1 + f.2.2.2.1), w32 (h.2.2.2.2 + f.2.2.2.2))

/-- Merkle-Damgard padding: 0x80, zeros, then the 64-bit big-endian bit length. -/
def sha1Pad (msg : List ℕ) : List ℕ :=
  let L := msg.length
  msg ++ [128] ++ List.replicate ((64 - (L + 9) % 64) % 64) 0 ++
    (List.range 8).map (fun i => 8 * L / 2 ^ (8 * (7 - i)) % 256)

/-- The SHA-1 digest (five 32-bit words) of a byte string. -/
def sha1Digest (msg : List ℕ) : ℕ × ℕ × ℕ × ℕ × ℕ :=
  let p := sha1Pad msg
  (List.range (p.length / 64)).foldl
    (fun h i => sha1Block h ((p.drop (64 * i)).take 64)) sha1Init

/-- Lower-case hexadecimal digit. -/
def hexChar (n : ℕ) : Char :=
  if n < 10 then Char.ofNat (48 + n) else Char.ofNat (87 + n)

/-- Eight hex characters of a 32-bit word, most significant first. -/
def hexWord32 (n : ℕ) : List Char :=
  (List.range 8).map (fun i => hexChar (n / 16 ^ (7 - i) % 16))

/-- `hashlib.sha1(...).hexdigest()`. -/
def sha1Hex (msg : List ℕ) : String :=
  String.mk (hexWord32 (sha1Digest msg).1 ++ hexWord32 (sha1Digest msg).2.1 ++
    hexWord32 (sha1Digest msg).2.2.1 ++ hexWord32 (sha1Digest msg).2.2.2.1 ++
    hexWord32 (sha1Digest msg).2.2.2.2)

/-- `encoding_fingerprint` (program.py lines 182-184): quantize the embedding to
two decimal places as float32 and return the SHA-1 hex digest of its bytes. -/
def encoding_fingerprint (enc : List ℚ) : String := sha1Hex (embBytes enc)

/- ===================== Helper lemmas ===================== -/

unseal Rat.add Rat.sub Rat.mul Rat.inv Rat.ofScientific

theorem mem_firstOccs {n : String} : ∀ {l : List String}, n ∈ l → n ∈ firstOccs l := by
  intro l
  induction l with
  | nil => intro h; cases h
  | cons x xs ih =>
    intro h
    rw [firstOccs]
    rcases List.mem_cons.mp h with h | h
    · exact h ▸ List.mem_cons_self x _
    · by_cases hx : n = x
      · exact hx ▸ List.mem_cons_self x _
      · exact List.mem_cons_of_mem x (List.mem_filter.mpr ⟨ih h, by simpa using hx⟩)

theorem pyfold_mem (l : List (String × ℕ)) (p : String × ℕ) :
    l.foldl (fun acc q => if acc.2 < q.2 then q else acc) p = p ∨
      l.foldl (fun acc q => if acc.2 < q.2 then q else acc) p ∈ l := by
  induction l generalizing p with
  | nil => exact Or.inl rfl
  | cons q t ih =>
    simp only [List.foldl_cons]
    rcases ih (if p.2 < q.2 then q else p) with h | h
    · rw [h]
      split_ifs with hq
      · exact Or.inr (List.mem_cons_self q t)
      · exact Or.inl rfl
    · exact Or.inr (List.mem_cons_of_mem q h)

theorem pyfold_ge (l : List (String × ℕ)) (p : String × ℕ) :
    p.2 ≤ (l.foldl (fun acc q => if acc.2 < q.2 then q else acc) p).2 ∧
      ∀ q ∈ l, q.2 ≤ (l.foldl (fun acc q => if acc.2 < q.2 then q else acc) p).2 := by
  induction l generalizing p with
  | nil => exact ⟨le_refl _, by intro q hq; cases hq⟩
  | cons q t ih =>
    simp only [List.foldl_cons]
    obtain ⟨h1, h2⟩ := ih (if p.2 < q.2 then q else p)
    constructor
    · refine le_trans ?_ h1
      split_ifs with hq
      · exact le_of_lt hq
      · exact le_refl _
    · intro r hr
      rcases List.mem_cons.mp hr with hr | hr
      · subst hr
        refine le_trans ?_ h1
        split_ifs with hq
        · exact le_refl _
        · exact not_lt.mp hq
      · exact h2 r hr

theorem pyMaxSnd_mem (l : List (String × ℕ)) (hl : l ≠ []) : pyMaxSnd l ∈ l := by
  match l with
  | [] => exact absurd rfl hl
  | p :: t =>
    rw [pyMaxSnd]
    rcases pyfold_mem t p with h | h
    · rw [h]; exact List.mem_cons_self p t
    · exact List.mem_cons_of_mem p h

theorem pyMaxSnd_ge (l : List (String × ℕ)) (q : String × ℕ) (hq : q ∈ l) :
    q.2 ≤ (pyMaxSnd l).2 := by
  match l with
  | [] => cases hq
  | p :: t =>
    rw [pyMaxSnd]
    rcases List.mem_cons.mp hq with h | h
    · exact h ▸ (pyfold_ge t p).1
    · exact (pyfold_ge t p).2 q h

theorem pushVote_ne_nil (w : ℕ) (buf : List String) (cand : String) (hw : 1 ≤ w) :
    pushVote w buf cand ≠ [] := by
  simp only [pushVote]
  intro h
  have := congrArg List.length h
  simp [List.length_drop] at this
  omega

theorem voteMode_is_max (w : ℕ) (buf : List String) (cand : String) (hw : 1 ≤ w) :
    (pyMaxSnd (voteCounts (pushVote w buf cand))).2 =
      (pushVote w buf cand).count (pyMaxSnd (voteCounts (pushVote w buf cand))).1 ∧
    ∀ n ∈ pushVote w buf cand,
      (pushVote w buf cand).count n ≤ (pyMaxSnd (voteCounts (pushVote w buf cand))).2 := by
  have hne : pushVote w buf cand ≠ [] := pushVote_ne_nil w buf cand hw
  have hcne : voteCounts (pushVote w buf cand) ≠ [] := by
    rw [voteCounts]
    intro h
    rcases List.exists_mem_of_ne_nil _ hne with ⟨x, hx⟩
    have := mem_firstOccs hx
    rw [List.map_eq_nil_iff] at h
    rw [h] at this
    cases this
  constructor
  · have hmem := pyMaxSnd_mem _ hcne
    rw [voteCounts, List.mem_map] at hmem
    obtain ⟨n, hn, hEq⟩ := hmem
    rw [voteCounts, ← hEq]
  · intro n hn
    exact pyMaxSnd_ge _ (n, (pushVote w buf cand).count n)
      (by rw [voteCounts, List.mem_map]; exact ⟨n, mem_firstOccs hn, rfl⟩)

theorem pushVote_lt (w : ℕ) (buf : List String) (cand : String) (h : buf.length < w) :
    pushVote w buf cand = buf ++ [cand] := by
  simp only [pushVote, List.length_append, List.length_singleton]
  rw [Nat.sub_eq_zero_of_le (by omega), List.drop_zero]

theorem pushVote_full (w : ℕ) (buf : List String) (cand : String) (h : buf.length = w)
    (hw : 1 ≤ w) : pushVote w buf cand = buf.tail ++ [cand] := by
  simp only [pushVote, List.length_append, List.length_singleton]
  have hd : buf.length + 1 - w = 1 := by omega
  rw [hd]
  cases buf with
  | nil => simp at h; omega
  | cons x xs => simp

theorem toggle_flip (today iso student_id : String) (r : AttendanceRow) :
    ((toggle_attendance_for_today_direct today iso student_id (some r)).status = "checked-out" ↔
      (lowerStr r.status = "checked-in" ∧ falsyStr r.check_out_at = true)) := by
  rw [toggle_attendance_for_today_direct]
  by_cases hE : r.status.isEmpty
  · have hs : r.status = "" := (String.isEmpty_iff r.status).mp hE
    rw [if_pos hE, hs]
    rw [if_neg (by rintro ⟨h1, -⟩; exact absurd h1 (by decide))]
    refine iff_of_false (by simp) ?_
    rintro ⟨h1, -⟩; exact absurd h1 (by decide)
  · rw [if_neg hE]
    split_ifs with hc
    · exact iff_of_true rfl hc
    · exact iff_of_false (by simp) hc

theorem toggle_binary (today iso student_id : String) (r : AttendanceRow) :
    (toggle_attendance_for_today_direct today iso student_id (some r)).status = "checked-out" ∨
      (toggle_attendance_for_today_direct today iso student_id (some r)).status = "checked-in" := by
  rw [toggle_attendance_for_today_direct]
  split_ifs <;> simp

theorem toggle_in_none (today iso student_id : String) (r : AttendanceRow)
    (h : (toggle_attendance_for_today_direct today iso student_id (some r)).status = "checked-in") :
    (toggle_attendance_for_today_direct today iso student_id (some r)).check_out_at = none := by
  rw [toggle_attendance_for_today_direct] at h ⊢
  split_ifs at h ⊢ <;> first | rfl | simp at h

theorem toggle_alternates (today iso iso2 student_id : String) (r : AttendanceRow) :
    (toggle_attendance_for_today_direct today iso2 student_id
        (some (toggle_attendance_for_today_direct today iso student_id (some r)))).status ≠
      (toggle_attendance_for_today_direct today iso student_id (some r)).status := by
  rcases toggle_binary today iso student_id r with h | h <;> rw [h]
  · rcases toggle_binary today iso2 student_id
        (toggle_attendance_for_today_direct today iso student_id (some r)) with h2 | h2
    · obtain ⟨hl, -⟩ := (toggle_flip today iso2 student_id _).mp h2
      rw [h] at hl
      exact absurd hl (by decide)
    · rw [h2]; decide
  · rw [(toggle_flip today iso2 student_id _).mpr
      ⟨by rw [h]; decide, by rw [toggle_in_none today iso student_id r h]; rfl⟩]
    decide

theorem notify_pass (D le now : ℚ) (gw : GwOutcome) (h : D ≤ now - le) :
    notify_seen D le now gw = ⟨gw.ok, gw.status, now, gw.isWrite⟩ := by
  rw [notify_seen, if_neg (not_lt.mpr h)]

theorem notify_block (D le now : ℚ) (gw : GwOutcome) (h : now - le < D) :
    notify_seen D le now gw = ⟨false, none, le, false⟩ := by
  rw [notify_seen, if_pos h]

theorem notify_not_ok (D le now : ℚ) (gw : GwOutcome) (hok : gw.ok = false) :
    (notify_seen D le now gw).ok = false := by
  rw [notify_seen]; split_ifs <;> simp [hok]

theorem notify_lastEvent_cases (D le now : ℚ) (gw : GwOutcome) :
    (notify_seen D le now gw).lastEvent = le ∨
      (D ≤ now - le ∧ (notify_seen D le now gw).lastEvent = now) := by
  rw [notify_seen]; split_ifs with h
  · exact Or.inl rfl
  · exact Or.inr ⟨not_lt.mp h, rfl⟩

theorem notify_ok_facts (D le now : ℚ) (gw : GwOutcome)
    (h : (notify_seen D le now gw).ok = true) :
    D ≤ now - le ∧ (notify_seen D le now gw).lastEvent = now := by
  by_cases h1 : now - le < D
  · rw [notify_block D le now gw h1] at h; cases h
  · exact ⟨not_lt.mp h1, by rw [notify_pass D le now gw (not_lt.mp h1)]⟩

theorem seenStep_present (cfg : Config) (es : EntityState) (now : ℚ) (gw : GwOutcome)
    (ps : PresenceState) (hps : es.ps = some ps) (hp : ps.present = true) :
    seenStep cfg es now gw =
      ⟨some { ps with last_seen_ts := now, missing_since := 0 }, es.lastEvent, none, 0⟩ := by
  simp [seenStep, hps, hp]

theorem seenStep_absent (cfg : Config) (es : EntityState) (now : ℚ) (gw : GwOutcome)
    (ps : PresenceState) (hps : es.ps = some ps) (hp : ps.present = false)
    (hfs : ps.first_seen_ts ≠ 0) :
    seenStep cfg es now gw =
      (if cfg.appear_sustain ≤ now - ps.first_seen_ts ∧
          cfg.event_debounce ≤ now - ps.last_toggle_at then
        (let r := notify_seen cfg.event_debounce es.lastEvent now gw
         if r.ok then
           ⟨some { ps with present := true, last_seen_ts := now, missing_since := 0, entered_at := now, last_toggle_at := now },
            r.lastEvent, some Event.checkIn, if r.wroteAttempt then 1 else 0⟩
         else
           ⟨some { ps with last_seen_ts := now, missing_since := 0 }, r.lastEvent, none,
            if r.wroteAttempt then 1 else 0⟩)
      else ⟨some { ps with last_seen_ts := now, missing_since := 0 }, es.lastEvent, none, 0⟩) := by
  simp only [seenStep, hps, Option.getD_some, hp, Bool.false_eq_true, if_false, ite_false, hfs]

theorem maintainStep_seen_present (cfg : Config) (st : PresenceState) (le now : ℚ)
    (gw : GwOutcome) (hp : st.present = true) :
    maintainStep cfg st le now true gw = ⟨some { st with missing_since := 0 }, le, none, 0⟩ := by
  simp [maintainStep, hp]

theorem maintainStep_seen_absent (cfg : Config) (st : PresenceState) (le now : ℚ)
    (gw : GwOutcome) (hp : st.present = false) :
    maintainStep cfg st le now true gw =
      (if st.first_seen_ts ≠ 0 ∧
          cfg.absence_grace * 3 < now - max st.first_seen_ts st.last_seen_ts then
        ⟨none, le, none, 0⟩ else ⟨some st, le, none, 0⟩) := by
  simp [maintainStep, hp]

theorem maintainStep_not_seen_absent (cfg : Config) (st : PresenceState) (le now : ℚ)
    (gw : GwOutcome) (hp : st.present = false) :
    maintainStep cfg st le now false gw =
      (if st.first_seen_ts ≠ 0 ∧
          cfg.absence_grace * 3 < now - max st.first_seen_ts st.last_seen_ts then
        ⟨none, le, none, 0⟩ else ⟨some st, le, none, 0⟩) := by
  simp [maintainStep, hp]

theorem maintainStep_leaving (cfg : Config) (st : PresenceState) (le now : ℚ)
    (gw : GwOutcome) (hp : st.present = true) (hm : st.missing_since ≠ 0) :
    maintainStep cfg st le now false gw =
      (if cfg.absence_grace ≤ now - st.missing_since ∧ cfg.min_session ≤ now - st.entered_at ∧
          cfg.event_debounce ≤ now - st.last_toggle_at then
        (let r := notify_seen cfg.event_debounce le now gw
         if r.ok then
           ⟨some { st with present := false, first_seen_ts := 0, entered_at := 0, last_toggle_at := now, missing_since := 0 },
            r.lastEvent, some Event.checkOut, if r.wroteAttempt then 1 else 0⟩
         else ⟨some st, r.lastEvent, none, if r.wroteAttempt then 1 else 0⟩)
      else ⟨some st, le, none, 0⟩) := by
  simp only [maintainStep, hp, if_true, ite_true, Bool.false_eq_true, if_false, ite_false, hm]

theorem maintainStep_first_missing (cfg : Config) (st : PresenceState) (le now : ℚ)
    (gw : GwOutcome) (hp : st.present = true) (hm : st.missing_since = 0) :
    maintainStep cfg st le now false gw =
      maintainStep cfg { st with missing_since := now } le now false gw := by
  by_cases hz : now = 0
  · simp [maintainStep, hp, hm, hz]
  · simp only [maintainStep, hp, if_true, ite_true, Bool.false_eq_true, if_false, ite_false,
      hm, hz]

theorem tick_not_seen_none (cfg : Config) (es : EntityState) (now : ℚ) (gw : GwOutcome)
    (h : es.ps = none) : tickEntity cfg es now false gw = ⟨es, none, 0⟩ := by
  simp [tickEntity, h]

theorem tick_not_seen (cfg : Config) (es : EntityState) (now : ℚ) (gw : GwOutcome)
    (ps : PresenceState) (h : es.ps = some ps) :
    tickEntity cfg es now false gw =
      ⟨⟨(maintainStep cfg ps es.lastEvent now false gw).ps,
        (maintainStep cfg ps es.lastEvent now false gw).lastEvent⟩,
       (maintainStep cfg ps es.lastEvent now false gw).event,
       (maintainStep cfg ps es.lastEvent now false gw).attempts⟩ := by
  simp [tickEntity, h]

theorem seenStep_ps_isSome (cfg : Config) (es : EntityState) (now : ℚ) (gw : GwOutcome) :
    ∃ st, (seenStep cfg es now gw).ps = some st := by
  simp only [seenStep]
  split_ifs <;> exact ⟨_, rfl⟩

theorem tick_seen (cfg : Config) (es : EntityState) (now : ℚ) (gw : GwOutcome)
    (st : PresenceState) (h : (seenStep cfg es now gw).ps = some st) :
    tickEntity cfg es now true gw =
      ⟨⟨(maintainStep cfg st (seenStep cfg es now gw).lastEvent now true gw).ps,
        (maintainStep cfg st (seenStep cfg es now gw).lastEvent now true gw).lastEvent⟩,
       (match (seenStep cfg es now gw).event with
        | some e => some e
        | none => (maintainStep cfg st (seenStep cfg es now gw).lastEvent now true gw).event),
       (seenStep cfg es now gw).attempts +
         (maintainStep cfg st (seenStep cfg es now gw).lastEvent now true gw).attempts⟩ := by
  simp only [tickEntity, if_true, ite_true, h]

theorem seenStep_lastEvent_cases (cfg : Config) (es : EntityState) (now : ℚ) (gw : GwOutcome) :
    (seenStep cfg es now gw).lastEvent = es.lastEvent ∨
      (cfg.event_debounce ≤ now - es.lastEvent ∧ (seenStep cfg es now gw).lastEvent = now) := by
  simp only [seenStep]
  split_ifs <;>
    first
      | exact Or.inl rfl
      | exact notify_lastEvent_cases cfg.event_debounce es.lastEvent now gw

theorem seenStep_event_facts (cfg : Config) (es : EntityState) (now : ℚ) (gw : GwOutcome)
    (e : Event) (h : (seenStep cfg es now gw).event = some e) :
    cfg.event_debounce ≤ now - es.lastEvent ∧ (seenStep cfg es now gw).lastEvent = now := by
  simp only [seenStep] at h ⊢
  split_ifs at h ⊢ <;>
    exact notify_ok_facts cfg.event_debounce es.lastEvent now gw (by assumption)

theorem maintainStep_seen_inert (cfg : Config) (st : PresenceState) (le now : ℚ)
    (gw : GwOutcome) :
    (maintainStep cfg st le now true gw).event = none ∧
      (maintainStep cfg st le now true gw).lastEvent = le := by
  simp only [maintainStep]
  split_ifs <;> simp

theorem maintainStep_lastEvent_cases (cfg : Config) (st : PresenceState) (le now : ℚ)
    (seen : Bool) (gw : GwOutcome) :
    (maintainStep cfg st le now seen gw).lastEvent = le ∨
      (cfg.event_debounce ≤ now - le ∧ (maintainStep cfg st le now seen gw).lastEvent = now) := by
  simp only [maintainStep]
  split_ifs <;>
    first
      | exact Or.inl rfl
      | exact notify_lastEvent_cases cfg.event_debounce le now gw

theorem maintainStep_event_facts (cfg : Config) (st : PresenceState) (le now : ℚ)
    (seen : Bool) (gw : GwOutcome) (e : Event)
    (h : (maintainStep cfg st le now seen gw).event = some e) :
    cfg.event_debounce ≤ now - le ∧ (maintainStep cfg st le now seen gw).lastEvent = now := by
  simp only [maintainStep] at h ⊢
  split_ifs at h ⊢ <;>
    exact notify_ok_facts cfg.event_debounce le now gw (by assumption)

theorem tick_lastEvent_cases (cfg : Config) (es : EntityState) (now : ℚ) (seen : Bool)
    (gw : GwOutcome) :
    (tickEntity cfg es now seen gw).es.lastEvent = es.lastEvent ∨
      (cfg.event_debounce ≤ now - es.lastEvent ∧
        (tickEntity cfg es now seen gw).es.lastEvent = now) := by
  cases seen
  · cases hps : es.ps with
    | none => rw [tick_not_seen_none cfg es now gw hps]; exact Or.inl rfl
    | some ps =>
      rw [tick_not_seen cfg es now gw ps hps]
      exact maintainStep_lastEvent_cases cfg ps es.lastEvent now false gw
  · obtain ⟨st, hst⟩ := seenStep_ps_isSome cfg es now gw
    rw [tick_seen cfg es now gw st hst]
    have hm := (maintainStep_seen_inert cfg st (seenStep cfg es now gw).lastEvent now gw).2
    simp only [hm]
    exact seenStep_lastEvent_cases cfg es now gw

theorem tick_event_facts (cfg : Config) (es : EntityState) (now : ℚ) (seen : Bool)
    (gw : GwOutcome) (e : Event) (h : (tickEntity cfg es now seen gw).event = some e) :
    cfg.event_debounce ≤ now - es.lastEvent ∧
      (tickEntity cfg es now seen gw).es.lastEvent = now := by
  cases seen
  · cases hps : es.ps with
    | none => rw [tick_not_seen_none cfg es now gw hps] at h; cases h
    | some ps =>
      rw [tick_not_seen cfg es now gw ps hps] at h ⊢
      exact maintainStep_event_facts cfg ps es.lastEvent now false gw e h
  · obtain ⟨st, hst⟩ := seenStep_ps_isSome cfg es now gw
    rw [tick_seen cfg es now gw st hst] at h ⊢
    have hm := maintainStep_seen_inert cfg st (seenStep cfg es now gw).lastEvent now gw
    simp only [hm.2]
    cases hse : (seenStep cfg es now gw).event with
    | none => simp only [hse, hm.1] at h; cases h
    | some e2 => exact seenStep_event_facts cfg es now gw e2 hse

theorem tick_lastEvent_mono (cfg : Config) (es : EntityState) (now : ℚ) (seen : Bool)
    (gw : GwOutcome) (hD : 0 ≤ cfg.event_debounce) :
    es.lastEvent ≤ (tickEntity cfg es now seen gw).es.lastEvent := by
  rcases tick_lastEvent_cases cfg es now seen gw with h | ⟨h1, h2⟩
  · rw [h]
  · rw [h2]; linarith

theorem run_events_lb (cfg : Config) (l : List TickIn) (es : EntityState)
    (hD : 0 ≤ cfg.event_debounce) :
    ∀ p ∈ (runEntity cfg es l).2, es.lastEvent + cfg.event_debounce ≤ p.1 := by
  induction l generalizing es with
  | nil => intro p hp; cases hp
  | cons i rest ih =>
    intro p hp
    simp only [runEntity, List.mem_append] at hp
    rcases hp with hp | hp
    · cases hev : (tickEntity cfg es i.now i.seen i.gw).event with
      | none => simp [hev] at hp
      | some e =>
        simp only [hev, List.mem_singleton] at hp
        subst hp
        have := (tick_event_facts cfg es i.now i.seen i.gw e hev).1
        simp only []
        linarith
    · have hmono := tick_lastEvent_mono cfg es i.now i.seen i.gw hD
      have := ih (tickEntity cfg es i.now i.seen i.gw).es p hp
      linarith

theorem seenStep_attempts_le_one (cfg : Config) (es : EntityState) (now : ℚ)
    (gw : GwOutcome) : (seenStep cfg es now gw).attempts ≤ 1 := by
  simp only [seenStep]
  split_ifs <;> simp

theorem maintainStep_attempts_le_one (cfg : Config) (st : PresenceState) (le now : ℚ)
    (seen : Bool) (gw : GwOutcome) : (maintainStep cfg st le now seen gw).attempts ≤ 1 := by
  simp only [maintainStep]
  split_ifs <;> simp

theorem maintainStep_seen_attempts (cfg : Config) (st : PresenceState) (le now : ℚ)
    (gw : GwOutcome) : (maintainStep cfg st le now true gw).attempts = 0 := by
  simp only [maintainStep]
  split_ifs <;> rfl

theorem tick_attempts_le_one (cfg : Config) (es : EntityState) (now : ℚ) (seen : Bool)
    (gw : GwOutcome) : (tickEntity cfg es now seen gw).attempts ≤ 1 := by
  cases seen
  · cases hps : es.ps with
    | none => rw [tick_not_seen_none cfg es now gw hps]; exact Nat.zero_le 1
    | some ps =>
      rw [tick_not_seen cfg es now gw ps hps]
      exact maintainStep_attempts_le_one cfg ps es.lastEvent now false gw
  · obtain ⟨st, hst⟩ := seenStep_ps_isSome cfg es now gw
    rw [tick_seen cfg es now gw st hst]
    have h0 := maintainStep_seen_attempts cfg st (seenStep cfg es now gw).lastEvent now gw
    simp only [h0, Nat.add_zero]
    exact seenStep_attempts_le_one cfg es now gw

theorem sortedDists_perm (enc : List ℝ) (identities : List String)
    (kf : String → List (List ℝ)) (cent : String → List ℝ) :
    (sortedDists enc identities kf cent).Perm (distList enc identities kf cent) :=
  List.mergeSort_perm (distList enc identities kf cent) _

theorem sortedDists_sorted (enc : List ℝ) (identities : List String)
    (kf : String → List (List ℝ)) (cent : String → List ℝ) :
    (sortedDists enc identities kf cent).Pairwise (fun a b => a.2 ≤ b.2) := by
  have h := @List.sorted_mergeSort (String × ℝ)
    (fun a b => decide (a.2 ≤ b.2))
    (fun a b c hab hbc => by
      simp only [decide_eq_true_eq] at *
      exact le_trans hab hbc)
    (fun a b => by simpa using le_total a.2 b.2)
    (distList enc identities kf cent)
  rw [sortedDists]
  exact h.imp (fun hab => by simpa using hab)

theorem f32bits_congr (x y : ℚ) (h1 : round2 x = round2 y) (h2 : x < 0 ↔ y < 0) :
    f32bits x = f32bits y := by
  rw [f32bits, f32bits, h1]
  by_cases hx : x < 0
  · rw [if_pos hx, if_pos (h2.mp hx)]
  · rw [if_neg hx, if_neg (fun hy => hx (h2.mpr hy))]

theorem embBytes_congr (v u : List ℚ)
    (h : v.map (fun x => (round2 x, decide (x < 0))) =
      u.map (fun x => (round2 x, decide (x < 0)))) :
    embBytes v = embBytes u := by
  rw [embBytes, embBytes]
  congr 1
  induction v generalizing u with
  | nil => cases u with
    | nil => rfl
    | cons y ys => simp at h
  | cons x xs ih =>
    cases u with
    | nil => simp at h
    | cons y ys =>
      simp only [List.map_cons, List.cons.injEq, Prod.mk.injEq] at h
      obtain ⟨⟨hr, hsg⟩, htl⟩ := h
      simp only [List.map_cons, List.cons.injEq]
      exact ⟨by rw [f32bits_congr x y hr (by simpa using congrArg (· = true) hsg)], ih ys htl⟩

theorem fingerprint_length (v : List ℚ) : (encoding_fingerprint v).length = 40 := by
  simp [encoding_fingerprint, sha1Hex, hexWord32, String.length]

/- ===================== Claims ===================== -/

/-- Claim C1, counterexample: the code does NOT collapse `Entering` back to
`Absent` on a not-seen tick.  An entity first seen at t = 100 (one frame, far
less than `APPEAR_SUSTAIN_SEC`), not seen at t = 100.5 — after which
`first_seen_ts` is still 100, not cleared — and seen again at t = 101 fires
`ConfirmCheckIn` from the stale entering window (101 − 100 ≥ 0.8). -/
theorem C1_stale_entering_window_checkin :
    (Option.map PresenceState.first_seen_ts
      (runEntity defaultConfig ⟨none, 0⟩
        [⟨100, true, .success none⟩, ⟨201/2, false, .success none⟩]).1.ps = some 100) ∧
    (runEntity defaultConfig ⟨none, 0⟩
        [⟨100, true, .success none⟩, ⟨201/2, false, .success none⟩,
         ⟨101, true, .success none⟩]).2 = [(101, Event.checkIn)] := by decide

/-- Claim C1 (amended): on a tick on which the entity is not seen, an entity
with `present = false` emits no event and attempts no gateway write, and its
`PresenceState` — `first_seen_ts` included — is left exactly as it was; the
only other possibility is that the whole entry is deleted by the staleness rule
(`first_seen_ts ≠ 0` and `now − max(first_seen_ts, last_seen_ts) >
3 × ABSENCE_GRACE_SEC`).  `firstSeenAt` is never cleared by mere absence, so a
later re-sighting can confirm a check-in from the stale entering window. -/
theorem C1_entering_not_seen_keeps_window (cfg : Config) (es : EntityState)
    (ps : PresenceState) (now : ℚ) (gw : GwOutcome)
    (hps : es.ps = some ps) (hpre : ps.present = false) :
    (tickEntity cfg es now false gw).event = none ∧
    (tickEntity cfg es now false gw).attempts = 0 ∧
    (tickEntity cfg es now false gw).es.lastEvent = es.lastEvent ∧
    ((tickEntity cfg es now false gw).es.ps = some ps ∨
      ((tickEntity cfg es now false gw).es.ps = none ∧ ps.first_seen_ts ≠ 0 ∧
        cfg.absence_grace * 3 < now - max ps.first_seen_ts ps.last_seen_ts)) := by
  simp only [tickEntity, hps, maintainStep, hpre, Bool.false_eq_true, if_false]
  split_ifs with hev
  · exact ⟨rfl, rfl, rfl, Or.inr ⟨rfl, hev.1, hev.2⟩⟩
  · exact ⟨rfl, rfl, rfl, Or.inl rfl⟩

/-- Witness for C1's amended theorem at a concrete entering-window state. -/
theorem C1_entering_not_seen_keeps_window_witness :
    (tickEntity defaultConfig ⟨some ⟨false, 100, 100, 0, 0, 0⟩, 0⟩ (201/2) false
      (.success none)).event = none ∧
    (tickEntity defaultConfig ⟨some ⟨false, 100, 100, 0, 0, 0⟩, 0⟩ (201/2) false
      (.success none)).attempts = 0 ∧
    (tickEntity defaultConfig ⟨some ⟨false, 100, 100, 0, 0, 0⟩, 0⟩ (201/2) false
      (.success none)).es.lastEvent =
        (⟨some ⟨false, 100, 100, 0, 0, 0⟩, 0⟩ : EntityState).lastEvent ∧
    ((tickEntity defaultConfig ⟨some ⟨false, 100, 100, 0, 0, 0⟩, 0⟩ (201/2) false
        (.success none)).es.ps = some ⟨false, 100, 100, 0, 0, 0⟩ ∨
      ((tickEntity defaultConfig ⟨some ⟨false, 100, 100, 0, 0, 0⟩, 0⟩ (201/2) false
          (.success none)).es.ps = none ∧
        (⟨false, 100, 100, 0, 0, 0⟩ : PresenceState).first_seen_ts ≠ 0 ∧
        defaultConfig.absence_grace * 3 < 201/2 - max 100 100)) :=
  C1_entering_not_seen_keeps_window defaultConfig ⟨some ⟨false, 100, 100, 0, 0, 0⟩, 0⟩
    ⟨false, 100, 100, 0, 0, 0⟩ (201/2) (.success none) rfl rfl

/-- Claim C2: `decide_identity` returns `("Unknown", ⊤, ⊤)` on an empty gallery;
otherwise there is an ascending sort `(bn, bd) :: rest` of the per-label
distance list `(n, 0.5·‖enc − centroid n‖ + 0.5·minₑ‖enc − e‖)` — so `bd` is
the rank-0 (smallest) distance, `bn` a label attaining it, and `second` is
exactly the rank-1 distance of that sort, `⊤` precisely when only one label
exists — and the function returns `"Unknown"` with those two distances exactly
when `bd > TOLERANCE` or `second − bd < GAP_MARGIN`, and the rank-0 label
otherwise. -/
theorem C2_decide_identity_spec (TOL GAP : ℝ) (enc : List ℝ) (identities : List String)
    (kf : String → List (List ℝ)) (cent : String → List ℝ) :
    (identities = [] → decide_identity TOL GAP enc identities kf cent = ("Unknown", ⊤, ⊤)) ∧
    (identities ≠ [] → ∃ bn : String, ∃ bd : ℝ, ∃ rest : List (String × ℝ),
      ∃ second : EReal,
      ((bn, bd) :: rest).Perm (identities.map
        (fun n => (n, 0.5 * vdist enc (cent n) + 0.5 * dmin enc (kf n)))) ∧
      ((bn, bd) :: rest).Pairwise (fun a b => a.2 ≤ b.2) ∧
      second = (match rest with
        | [] => (⊤ : EReal)
        | q :: _ => ((q.2 : ℝ) : EReal)) ∧
      (∀ n ∈ identities, bd ≤ 0.5 * vdist enc (cent n) + 0.5 * dmin enc (kf n)) ∧
      (second = ⊤ ↔ identities.length = 1) ∧
      ((bd > TOL ∨ second - (bd : EReal) < (GAP : EReal)) →
        decide_identity TOL GAP enc identities kf cent = ("Unknown", (bd : EReal), second)) ∧
      (¬(bd > TOL ∨ second - (bd : EReal) < (GAP : EReal)) →
        decide_identity TOL GAP enc identities kf cent = (bn, (bd : EReal), second))) := by
  constructor
  · intro h
    rw [decide_identity, if_pos h]
  · intro hne
    have hDL : distList enc identities kf cent = identities.map
        (fun n => (n, 0.5 * vdist enc (cent n) + 0.5 * dmin enc (kf n))) := rfl
    have hperm := sortedDists_perm enc identities kf cent
    have hsorted := sortedDists_sorted enc identities kf cent
    have hlen : (sortedDists enc identities kf cent).length = identities.length := by
      rw [hperm.length_eq, distList, List.length_map]
    obtain ⟨p, tl, hs⟩ : ∃ p tl, sortedDists enc identities kf cent = p :: tl := by
      cases hsd : sortedDists enc identities kf cent with
      | nil =>
        rw [hsd] at hlen
        exact absurd (List.eq_nil_of_length_eq_zero hlen.symm) hne
      | cons p tl => exact ⟨p, tl, rfl⟩
    have hmin : ∀ q ∈ distList enc identities kf cent, p.2 ≤ q.2 := by
      intro q hq
      have hq2 := hperm.mem_iff.mpr hq
      rw [hs] at hq2
      rcases List.mem_cons.mp hq2 with h | h
      · rw [h]
      · have hsorted2 := hsorted
        rw [hs] at hsorted2
        exact (List.pairwise_cons.mp hsorted2).1 q h
    cases tl with
    | nil =>
      refine ⟨p.1, p.2, [], ⊤, ?_, ?_, rfl, ?_, ?_, ?_, ?_⟩
      · rw [← hDL, ← hs]
        exact hperm
      · rw [← hs]
        exact hsorted
      · intro n hn
        exact hmin (n, _) (by rw [hDL]; exact List.mem_map_of_mem _ hn)
      · rw [hs] at hlen
        simp only [List.length_singleton] at hlen
        simpa using hlen.symm
      · intro hcond
        rw [decide_identity, if_neg hne]
        simp only [hs, List.headD_cons, List.getElem?_cons_succ, List.getElem?_cons_zero,
          List.getElem?_nil]
        rw [if_pos hcond]
      · intro hcond
        rw [decide_identity, if_neg hne]
        simp only [hs, List.headD_cons, List.getElem?_cons_succ, List.getElem?_cons_zero,
          List.getElem?_nil]
        rw [if_neg hcond]
    | cons q tl2 =>
      refine ⟨p.1, p.2, q :: tl2, ((q.2 : ℝ) : EReal), ?_, ?_, rfl, ?_, ?_, ?_, ?_⟩
      · rw [← hDL, ← hs]
        exact hperm
      · rw [← hs]
        exact hsorted
      · intro n hn
        exact hmin (n, _) (by rw [hDL]; exact List.mem_map_of_mem _ hn)
      · rw [hs] at hlen
        constructor
        · intro htop
          exact absurd htop (by simp)
        · intro h1
          rw [← hlen] at h1
          simp at h1
      · intro hcond
        rw [decide_identity, if_neg hne]
        simp only [hs, List.headD_cons, List.getElem?_cons_succ, List.getElem?_cons_zero,
          List.getElem?_nil]
        rw [if_pos hcond]
      · intro hcond
        rw [decide_identity, if_neg hne]
        simp only [hs, List.headD_cons, List.getElem?_cons_succ, List.getElem?_cons_zero,
          List.getElem?_nil]
        rw [if_neg hcond]

/-- Witness for C2 on a concrete one-label gallery: the label distance is 0, the
rank-1 distance is `⊤`, neither rejection condition holds, and the rank-0 label
is returned. -/
theorem C2_decide_identity_spec_witness :
    decide_identity (1/2) (1/10) [0] ["a"] (fun _ => [[0]]) (fun _ => [0]) =
      ("a", ((0 : ℝ) : EReal), ⊤) := by
  obtain ⟨bn, bd, rest, second, hperm, hsort, hsec, hmin, htop, hpos, hneg⟩ :=
    (C2_decide_identity_spec (1/2) (1/10) [0] ["a"] (fun _ => [[0]]) (fun _ => [0])).2
      (by simp)
  have hd : (["a"].map (fun n => (n, 0.5 * vdist [0] ((fun _ => ([0] : List ℝ)) n) +
      0.5 * dmin [0] ((fun _ => ([[0]] : List (List ℝ))) n)))) = [("a", (0 : ℝ))] := by
    simp [vdist, dmin]
  rw [hd] at hperm
  have hsing := List.perm_singleton.mp hperm
  simp only [List.cons.injEq, Prod.mk.injEq] at hsing
  obtain ⟨⟨hbn, hbd⟩, hrest⟩ := hsing
  subst hbn hbd hrest
  simp only [] at hsec
  subst hsec
  exact hneg (by
    push_neg
    constructor
    · norm_num
    · rw [EReal.top_sub_coe]
      exact le_top)

/-- Claim C3: the vote buffer is a FIFO of capacity `w` evicting the oldest
entry on overflow; the stabilized label is the (first-encountered) majority
label — its recorded count is its true count and no buffer element has a larger
count — whenever that majority is not `"Unknown"` and its count reaches `req`,
and `"Unknown"` otherwise; in particular seven consecutive `L` give `L`, and
`L, Unknown, L, Unknown, L, Unknown, L` gives `L` with window 7 and
requirement 3. -/
theorem C3_vote_step_spec (w req : ℕ) (buf : List String) (cand : String) (hw : 1 ≤ w) :
    (buf.length < w → (voteStep w req buf cand).1 = buf ++ [cand]) ∧
    (buf.length = w → (voteStep w req buf cand).1 = buf.tail ++ [cand]) ∧
    ((pyMaxSnd (voteCounts (pushVote w buf cand))).2 =
        (pushVote w buf cand).count (pyMaxSnd (voteCounts (pushVote w buf cand))).1 ∧
      ∀ n ∈ pushVote w buf cand,
        (pushVote w buf cand).count n ≤ (pyMaxSnd (voteCounts (pushVote w buf cand))).2) ∧
    ((voteStep w req buf cand).2 =
      if (pyMaxSnd (voteCounts (pushVote w buf cand))).1 ≠ "Unknown" ∧
          req ≤ (pyMaxSnd (voteCounts (pushVote w buf cand))).2 then
        (pyMaxSnd (voteCounts (pushVote w buf cand))).1 else "Unknown") ∧
    (voteFeed 7 3 ["L", "L", "L", "L", "L", "L", "L"]).2 = "L" ∧
    (voteFeed 7 3 ["L", "Unknown", "L", "Unknown", "L", "Unknown", "L"]).2 = "L" :=
  ⟨fun h => pushVote_lt w buf cand h, fun h => pushVote_full w buf cand h hw,
    voteMode_is_max w buf cand hw, rfl, by decide, by decide⟩

/-- Witness for C3 at window 7, requirement 3, on a full buffer. -/
theorem C3_vote_step_spec_witness :
    (voteStep 7 3 ["L", "L", "L", "L", "L", "L", "L"] "L").1 =
      ["L", "L", "L", "L", "L", "L", "L"].tail ++ ["L"] :=
  ((C3_vote_step_spec 7 3 ["L", "L", "L", "L", "L", "L", "L"] "L" (by decide)).2.1) rfl

/-- Claim C4, counterexample: the three timing conditions alone do NOT
characterize check-out confirmation.  From a leaving state qualifying at
t = 100, a failing gateway attempt stamps `_last_event_at := 100` while
leaving the `PresenceState` untouched; at t = 101 the entity is present, not
seen, all three claimed conditions hold (3 ≥ grace 2, 21 ≥ min-session 15,
21 ≥ debounce 3) and the gateway is healthy, yet no check-out is confirmed,
because only 1 s has passed since the stamped attempt. -/
theorem C4_post_failure_no_checkout :
    checkoutTiming defaultConfig ⟨true, 80, 100, 80, 80, 98⟩ 101 ∧
    (tickEntity defaultConfig ⟨some ⟨true, 80, 100, 80, 80, 98⟩, 80⟩ 100 false
      .dbError).es = ⟨some ⟨true, 80, 100, 80, 80, 98⟩, 100⟩ ∧
    (tickEntity defaultConfig ⟨some ⟨true, 80, 100, 80, 80, 98⟩, 100⟩ 101 false
      (.success none)).event = none := by decide

/-- Claim C4 (amended): for a present entity not seen on a tick with a healthy
gateway, a check-out is confirmed exactly when `now − missingSince ≥
ABSENCE_GRACE_SEC` (with `missingSince` read as `now` if the leaving window
opens on this very tick), `now − enteredAt ≥ MIN_SESSION_SEC`,
`now − lastToggleAt ≥ EVENT_DEBOUNCE_SEC`, AND `now − _last_event_at ≥
EVENT_DEBOUNCE_SEC` — the fourth condition, on the debounce stamp that failed
attempts also advance, is what the original claim missed.  In particular no
`ConfirmCheckOut` occurs before `MIN_SESSION_SEC` has elapsed since `enteredAt`
even when `ABSENCE_GRACE_SEC` has already elapsed, and on confirmation
`entered_at` and `missing_since` are cleared, `last_toggle_at` is set to `now`,
`first_seen_ts` is cleared, and `present` becomes false. -/
theorem C4_checkout_conditions (cfg : Config) (es : EntityState) (ps : PresenceState)
    (now : ℚ) (st : Option String) (hps : es.ps = some ps) (hpre : ps.present = true) :
    ((tickEntity cfg es now false (.success st)).event = some Event.checkOut ↔
      (cfg.absence_grace ≤ now - (if ps.missing_since = 0 then now else ps.missing_since) ∧
       cfg.min_session ≤ now - ps.entered_at ∧
       cfg.event_debounce ≤ now - ps.last_toggle_at ∧
       cfg.event_debounce ≤ now - es.lastEvent)) ∧
    ((tickEntity cfg es now false (.success st)).event = some Event.checkOut →
      (tickEntity cfg es now false (.success st)).es.ps =
        some { ps with present := false, first_seen_ts := 0, entered_at := 0, last_toggle_at := now, missing_since := 0 } ∧
      (tickEntity cfg es now false (.success st)).es.lastEvent = now) := by
  simp only [tickEntity, hps, maintainStep, hpre, if_true, notify_seen]
  rcases eq_or_ne ps.missing_since 0 with h0 | h0 <;>
    simp only [h0, if_pos, if_neg, ite_true, ite_false, ne_eq, not_false_iff] <;>
    split_ifs with hcond hdeb <;>
    simp_all [GwOutcome.ok, GwOutcome.status, GwOutcome.isWrite]

/-- Witness for C4's amended theorem on a concrete leaving-window state where
all four conditions hold. -/
theorem C4_checkout_conditions_witness :
    (tickEntity defaultConfig ⟨some ⟨true, 100, 100, 80, 80, 98⟩, 80⟩ 101 false
      (.success none)).event = some Event.checkOut :=
  (C4_checkout_conditions defaultConfig ⟨some ⟨true, 100, 100, 80, 80, 98⟩, 80⟩
      ⟨true, 100, 100, 80, 80, 98⟩ 101 none rfl rfl).1.mpr (by decide)

/-- Claim C5: along any run, any two confirmed transitions for the same entity
are at least `EVENT_DEBOUNCE_SEC` apart — the `_last_event_at` stamp enforces
this floor even across state-entry eviction and re-creation, for any initial
state and any tick sequence. -/
theorem C5_debounce_floor (cfg : Config) (es : EntityState) (l : List TickIn)
    (hD : 0 ≤ cfg.event_debounce) :
    ((runEntity cfg es l).2).Pairwise
      (fun a b => a.1 + cfg.event_debounce ≤ b.1) := by
  induction l generalizing es with
  | nil => exact List.Pairwise.nil
  | cons i rest ih =>
    simp only [runEntity]
    cases hev : (tickEntity cfg es i.now i.seen i.gw).event with
    | none => simpa using ih (tickEntity cfg es i.now i.seen i.gw).es
    | some e =>
      simp only [List.singleton_append, List.pairwise_cons]
      refine ⟨?_, ih (tickEntity cfg es i.now i.seen i.gw).es⟩
      intro p hp
      have hfacts := tick_event_facts cfg es i.now i.seen i.gw e hev
      have hlb := run_events_lb cfg rest (tickEntity cfg es i.now i.seen i.gw).es hD p hp
      rw [hfacts.2] at hlb
      linarith

/-- Witness for C5 on a run with a check-in at t = 100.8 and a check-out at
t = 118, 17.2 s apart. -/
theorem C5_debounce_floor_witness :
    (runEntity defaultConfig ⟨none, 0⟩
        [⟨100, true, .success none⟩, ⟨504/5, true, .success none⟩,
         ⟨116, false, .success none⟩, ⟨118, false, .success none⟩]).2 =
      [(504/5, Event.checkIn), (118, Event.checkOut)] ∧
    ((runEntity defaultConfig ⟨none, 0⟩
        [⟨100, true, .success none⟩, ⟨504/5, true, .success none⟩,
         ⟨116, false, .success none⟩, ⟨118, false, .success none⟩]).2).Pairwise
      (fun a b => a.1 + defaultConfig.event_debounce ≤ b.1) :=
  ⟨by decide, C5_debounce_floor defaultConfig ⟨none, 0⟩
    [⟨100, true, .success none⟩, ⟨504/5, true, .success none⟩,
     ⟨116, false, .success none⟩, ⟨118, false, .success none⟩] (by decide)⟩

/-- Claim C6, counterexample: a failed gateway call leaves the `PresenceState`
untouched, but `_debounced` has already stamped `_last_event_at`, so the very
next qualifying tick — timing conditions all satisfied and the gateway now
healthy — does NOT fire the transition: the failed attempt armed the debounce
window.  At t = 100.5 the check-out qualifies and the DB write fails; at
t = 101 it qualifies again (3 ≥ grace 2, 21 ≥ min-session 15,
21 ≥ debounce 3) and the gateway succeeds, yet no event fires. -/
theorem C6_failed_attempt_arms_debounce :
    ((tickEntity defaultConfig ⟨some ⟨true, 80, 100, 80, 80, 98⟩, 80⟩ (201/2) false
        .dbError).es.ps = some ⟨true, 80, 100, 80, 80, 98⟩) ∧
    ((tickEntity defaultConfig ⟨some ⟨true, 80, 100, 80, 80, 98⟩, 80⟩ (201/2) false
        .dbError).event = none) ∧
    checkoutTiming defaultConfig ⟨true, 80, 100, 80, 80, 98⟩ 101 ∧
    ((tickEntity defaultConfig
        (tickEntity defaultConfig ⟨some ⟨true, 80, 100, 80, 80, 98⟩, 80⟩ (201/2) false
          .dbError).es
        101 false (.success none)).event = none) := by decide

/-- Claim C6 (amended): at most one gateway call is attempted per entity per
tick; on a qualifying tick with a failing gateway the `PresenceState` keeps all
its fields (only `last_seen_ts` refreshes on a seen tick) and no event fires;
and the pending transition fires on a qualifying tick at which the gateway
succeeds AND at least `EVENT_DEBOUNCE_SEC` has passed since the last attempted
gateway call — the extra debounce-map condition is what the original claim
missed. -/
theorem C6_failure_retry (cfg : Config) (es : EntityState) (ps : PresenceState)
    (now : ℚ) (hps : es.ps = some ps) (hG : 0 ≤ cfg.absence_grace) :
    (∀ seen gw, (tickEntity cfg es now seen gw).attempts ≤ 1) ∧
    (checkinTiming cfg ps now → ps.missing_since = 0 → ∀ gw, gw.ok = false →
      ((tickEntity cfg es now true gw).es.ps = some { ps with last_seen_ts := now } ∧
       (tickEntity cfg es now true gw).event = none)) ∧
    (checkinTiming cfg ps now → cfg.event_debounce ≤ now - es.lastEvent → ∀ st,
      (tickEntity cfg es now true (.success st)).event = some Event.checkIn) ∧
    (checkoutTiming cfg ps now → ∀ gw, gw.ok = false →
      ((tickEntity cfg es now false gw).es.ps = some ps ∧
       (tickEntity cfg es now false gw).event = none)) ∧
    (checkoutTiming cfg ps now → cfg.event_debounce ≤ now - es.lastEvent → ∀ st,
      (tickEntity cfg es now false (.success st)).event = some Event.checkOut) := by
  refine ⟨fun seen gw => tick_attempts_le_one cfg es now seen gw, ?_, ?_, ?_, ?_⟩
  · rintro ⟨hpre, hfs, hsus, hdeb⟩ hmiss gw hok
    have hstm : ({ ps with last_seen_ts := now, missing_since := 0 } : PresenceState) =
        { ps with last_seen_ts := now } := by
      rw [show (0 : ℚ) = ps.missing_since from hmiss.symm]
    have hse : seenStep cfg es now gw =
        ⟨some { ps with last_seen_ts := now },
         (notify_seen cfg.event_debounce es.lastEvent now gw).lastEvent, none,
         if (notify_seen cfg.event_debounce es.lastEvent now gw).wroteAttempt then 1 else 0⟩ := by
      rw [seenStep_absent cfg es now gw ps hps hpre hfs, if_pos ⟨hsus, hdeb⟩]
      simp only [notify_not_ok cfg.event_debounce es.lastEvent now gw hok, Bool.false_eq_true,
        if_false, ite_false, hstm]
    have hips : (seenStep cfg es now gw).ps = some { ps with last_seen_ts := now } := by
      rw [hse]
    have hm := maintainStep_seen_absent cfg { ps with last_seen_ts := now }
      (notify_seen cfg.event_debounce es.lastEvent now gw).lastEvent now gw (by simp [hpre])
    rw [tick_seen cfg es now gw { ps with last_seen_ts := now } hips]
    rw [hse]
    simp only [hm]
    rw [if_neg]
    · exact ⟨rfl, rfl⟩
    · rintro ⟨-, hlt⟩
      have h1 : now - max ({ ps with last_seen_ts := now } : PresenceState).first_seen_ts
          ({ ps with last_seen_ts := now } : PresenceState).last_seen_ts ≤ 0 := by
        simp only []
        linarith [le_max_right ps.first_seen_ts now]
      linarith
  · rintro ⟨hpre, hfs, hsus, hdeb⟩ hnle st
    have hr : notify_seen cfg.event_debounce es.lastEvent now (.success st) =
        ⟨true, st, now, true⟩ :=
      notify_pass cfg.event_debounce es.lastEvent now (.success st) hnle
    have hse : seenStep cfg es now (.success st) =
        ⟨some { ps with present := true, last_seen_ts := now, missing_since := 0, entered_at := now, last_toggle_at := now },
         now, some Event.checkIn, 1⟩ := by
      rw [seenStep_absent cfg es now (.success st) ps hps hpre hfs, if_pos ⟨hsus, hdeb⟩]
      simp [hr]
    have hips : (seenStep cfg es now (.success st)).ps =
        some { ps with present := true, last_seen_ts := now, missing_since := 0, entered_at := now, last_toggle_at := now } := by
      rw [hse]
    rw [tick_seen cfg es now (.success st) _ hips, hse]
  · rintro ⟨hpre, hm0, hgrace, hsess, hdeb⟩ gw hok
    have hse := maintainStep_leaving cfg ps es.lastEvent now gw hpre hm0
    rw [tick_not_seen cfg es now gw ps hps, hse, if_pos ⟨hgrace, hsess, hdeb⟩]
    simp only [notify_not_ok cfg.event_debounce es.lastEvent now gw hok, Bool.false_eq_true,
      if_false, ite_false]
    exact ⟨trivial, trivial⟩
  · rintro ⟨hpre, hm0, hgrace, hsess, hdeb⟩ hnle st
    have hr : notify_seen cfg.event_debounce es.lastEvent now (.success st) =
        ⟨true, st, now, true⟩ :=
      notify_pass cfg.event_debounce es.lastEvent now (.success st) hnle
    have hse := maintainStep_leaving cfg ps es.lastEvent now (.success st) hpre hm0
    rw [tick_not_seen cfg es now (.success st) ps hps, hse, if_pos ⟨hgrace, hsess, hdeb⟩]
    simp [hr]

/-- Witness for C6's amended theorem: the failed attempt leaves the state, and
with the debounce-map condition satisfied the check-out fires. -/
theorem C6_failure_retry_witness :
    ((tickEntity defaultConfig ⟨some ⟨true, 80, 100, 80, 80, 98⟩, 80⟩ (201/2) false
        .dbError).es.ps = some ⟨true, 80, 100, 80, 80, 98⟩ ∧
      (tickEntity defaultConfig ⟨some ⟨true, 80, 100, 80, 80, 98⟩, 80⟩ (201/2) false
        .dbError).event = none) ∧
    (tickEntity defaultConfig ⟨some ⟨true, 80, 100, 80, 80, 98⟩, 80⟩ (201/2) false
      (.success none)).event = some Event.checkOut :=
  ⟨(C6_failure_retry defaultConfig ⟨some ⟨true, 80, 100, 80, 80, 98⟩, 80⟩
      ⟨true, 80, 100, 80, 80, 98⟩ (201/2) rfl (by decide)).2.2.2.1 (by decide) .dbError rfl,
   (C6_failure_retry defaultConfig ⟨some ⟨true, 80, 100, 80, 80, 98⟩, 80⟩
      ⟨true, 80, 100, 80, 80, 98⟩ (201/2) rfl (by decide)).2.2.2.2 (by decide) (by decide) none⟩

/-- Claim C7, counterexample: eviction is NOT restricted to trackers that never
reached `Present`.  This run checks in at t = 100.8 and checks out at t = 118
(so the tracker was confirmed present), is briefly seen again at t = 120
(re-opening an entering window), and at t = 127 — 7 s > 3 × ABSENCE_GRACE_SEC
= 6 s stale — the entry is removed from the mapping. -/
theorem C7_eviction_after_confirmed_session :
    (runEntity defaultConfig ⟨none, 0⟩
        [⟨100, true, .success none⟩, ⟨504/5, true, .success none⟩,
         ⟨116, false, .success none⟩, ⟨118, false, .success none⟩,
         ⟨120, true, .success none⟩, ⟨127, false, .success none⟩]).2 =
      [(504/5, Event.checkIn), (118, Event.checkOut)] ∧
    (runEntity defaultConfig ⟨none, 0⟩
        [⟨100, true, .success none⟩, ⟨504/5, true, .success none⟩,
         ⟨116, false, .success none⟩, ⟨118, false, .success none⟩,
         ⟨120, true, .success none⟩, ⟨127, false, .success none⟩]).1.ps = none := by decide

/-- Claim C7 (amended): on a not-seen tick, a tracker with `present = false`
and `first_seen_ts ≠ 0` is removed from the mapping exactly when
`now − max(first_seen_ts, last_seen_ts) > 3 × ABSENCE_GRACE_SEC`; a currently
present tracker is never removed.  Eviction requires `present = false` and an
open entering window but NOT that the tracker never reached `Present`: after a
completed session a re-entering tracker can be evicted too. -/
theorem C7_eviction_rule (cfg : Config) (es : EntityState) (ps : PresenceState)
    (now : ℚ) (gw : GwOutcome) (hps : es.ps = some ps) :
    (ps.present = false → ps.first_seen_ts ≠ 0 →
      cfg.absence_grace * 3 < now - max ps.first_seen_ts ps.last_seen_ts →
      (tickEntity cfg es now false gw).es.ps = none) ∧
    (ps.present = false →
      ¬(ps.first_seen_ts ≠ 0 ∧
        cfg.absence_grace * 3 < now - max ps.first_seen_ts ps.last_seen_ts) →
      (tickEntity cfg es now false gw).es.ps = some ps) ∧
    (∀ seen, ps.present = true → (tickEntity cfg es now seen gw).es.ps ≠ none) := by
  refine ⟨?_, ?_, ?_⟩
  · intro hpre hfs hstale
    simp only [tickEntity, hps, maintainStep, hpre, Bool.false_eq_true, if_false]
    rw [if_pos ⟨hfs, hstale⟩]
  · intro hpre hns
    simp only [tickEntity, hps, maintainStep, hpre, Bool.false_eq_true, if_false]
    rw [if_neg hns]
  · intro seen hpre
    cases seen <;>
      simp only [tickEntity, seenStep, hps, Option.getD_some, maintainStep, hpre,
        Bool.false_eq_true, if_false, if_true, ite_true, ite_false] <;>
      (try split_ifs) <;> simp_all

/-- Witness for C7's amended theorem: a stale never-present entry is evicted. -/
theorem C7_eviction_rule_witness :
    (tickEntity defaultConfig ⟨some ⟨false, 120, 120, 0, 118, 0⟩, 118⟩ 127 false
      (.success none)).es.ps = none :=
  (C7_eviction_rule defaultConfig ⟨some ⟨false, 120, 120, 0, 118, 0⟩, 118⟩
      ⟨false, 120, 120, 0, 118, 0⟩ 127 (.success none) rfl).1 rfl (by decide) (by decide)

/-- Claim C8: on a missing row the toggle inserts a fresh `checked-in` row with
`visits = 1` and no `check_out_at`; on an existing row it always increments
`visits` by one, flips the status to `checked-out` exactly when the stored
status lower-cases to `checked-in` with a falsy `check_out_at` (and to
`checked-in` otherwise), and therefore successive toggles against the produced
rows strictly alternate between the two statuses. -/
theorem C8_toggle_attendance_spec (today iso iso2 student_id : String) :
    (toggle_attendance_for_today_direct today iso student_id none =
      { date := today, student_id := student_id, check_in_at := some iso, check_out_at := none, status := "checked-in", visits := 1, last_seen_at := iso }) ∧
    (∀ r, (toggle_attendance_for_today_direct today iso student_id (some r)).visits =
      r.visits + 1) ∧
    (∀ r, (toggle_attendance_for_today_direct today iso student_id (some r)).status =
        "checked-out" ↔
      (lowerStr r.status = "checked-in" ∧ falsyStr r.check_out_at = true)) ∧
    (∀ r, (toggle_attendance_for_today_direct today iso student_id (some r)).status =
        "checked-out" ∨
      (toggle_attendance_for_today_direct today iso student_id (some r)).status =
        "checked-in") ∧
    (∀ r, (toggle_attendance_for_today_direct today iso2 student_id
        (some (toggle_attendance_for_today_direct today iso student_id (some r)))).status ≠
      (toggle_attendance_for_today_direct today iso student_id (some r)).status) := by
  refine ⟨rfl, ?_, fun r => toggle_flip today iso student_id r,
    fun r => toggle_binary today iso student_id r,
    fun r => toggle_alternates today iso iso2 student_id r⟩
  intro r
  rw [toggle_attendance_for_today_direct]
  split_ifs <;> rfl

/-- Witness for C8: two toggles starting from a fresh row alternate in/out. -/
theorem C8_toggle_attendance_spec_witness :
    (toggle_attendance_for_today_direct "2026-10-12" "T2" "s1"
        (some (toggle_attendance_for_today_direct "2026-10-12" "T1" "s1"
          (some (toggle_attendance_for_today_direct "2026-10-12" "T0" "s1" none))))).status ≠
      (toggle_attendance_for_today_direct "2026-10-12" "T1" "s1"
        (some (toggle_attendance_for_today_direct "2026-10-12" "T0" "s1" none))).status :=
  (C8_toggle_attendance_spec "2026-10-12" "T1" "T2" "s1").2.2.2.2
    (toggle_attendance_for_today_direct "2026-10-12" "T0" "s1" none)

set_option maxRecDepth 8000 in
/-- Claim C9, counterexample: `0.123` and `0.129` differ only in the third
decimal place — both are exact three-decimal numbers whose first two decimals
agree (`⌊100·x⌋ = 12` for both) — yet they quantize to different hundredths
(0.12 vs 0.13), so their fingerprints differ. -/
theorem C9_third_decimal_differs :
    ((123 : ℚ)/1000 ≠ (129 : ℚ)/1000) ∧
    ⌊(123 : ℚ)/1000 * 100⌋ = ⌊(129 : ℚ)/1000 * 100⌋ ∧
    (123 : ℚ)/1000 * 1000 = 123 ∧ (129 : ℚ)/1000 * 1000 = 129 ∧
    round2 ((123 : ℚ)/1000) ≠ round2 ((129 : ℚ)/1000) ∧
    encoding_fingerprint [123/1000] ≠ encoding_fingerprint [129/1000] := by decide

/-- Claim C9 (amended): the fingerprint quantizes every component to two
decimal places (ties to even) and hex-encodes the 160-bit SHA-1 digest of the
quantized vector's float32 bytes, so its hex string always has 40 characters;
two embeddings whose components agree after quantization (same rounded
hundredth, same sign for the zero case) have equal fingerprints.  Agreement at
the first two decimal places alone does NOT suffice, since third-decimal
differences can round to different hundredths. -/
theorem C9_fingerprint_quantization (v u : List ℚ)
    (h : v.map (fun x => (round2 x, decide (x < 0))) =
      u.map (fun x => (round2 x, decide (x < 0)))) :
    encoding_fingerprint v = encoding_fingerprint u ∧
      (encoding_fingerprint v).length = 40 := by
  refine ⟨?_, fingerprint_length v⟩
  rw [encoding_fingerprint, encoding_fingerprint, embBytes_congr v u h]

set_option maxRecDepth 8000 in
/-- Witness for C9's amended theorem: `0.121` and `0.124` both quantize to
`0.12` and collide to the same fingerprint. -/
theorem C9_fingerprint_quantization_witness :
    encoding_fingerprint [121/1000] = encoding_fingerprint [124/1000] ∧
      (encoding_fingerprint [121/1000]).length = 40 :=
  C9_fingerprint_quantization [121/1000] [124/1000] (by decide)

/-- Claim C10: once the `_debounced` gate passes, `_last_event_at[key]` is
stamped with the current time BEFORE the gateway work happens — the stamp is
written whether the lookup misses, the DB toggle raises, or the toggle
succeeds — and every further notify call for the same key within
`EVENT_DEBOUNCE_SEC` of that stamp returns `(False, None)` without touching
the gateway and without moving the stamp. -/
theorem C10_debounce_stamp_before_gateway (D le now : ℚ) (gw : GwOutcome)
    (h : D ≤ now - le) :
    (notify_seen D le now gw).lastEvent = now ∧
    (notify_seen D le now gw).ok = gw.ok ∧
    (notify_seen D le now gw).status = gw.status ∧
    (∀ n2 gw2, n2 - now < D → notify_seen D now n2 gw2 = ⟨false, none, now, false⟩) := by
  rw [notify_pass D le now gw h]
  exact ⟨rfl, rfl, rfl, fun n2 gw2 h2 => notify_block D now n2 gw2 h2⟩

/-- Witness for C10: a failed toggle at t = 100 still stamps the debounce map,
and a call at t = 101 is refused without any gateway write. -/
theorem C10_debounce_stamp_before_gateway_witness :
    (notify_seen 3 0 100 .dbError).lastEvent = 100 ∧
    (notify_seen 3 0 100 .dbError).ok = GwOutcome.ok .dbError ∧
    (notify_seen 3 0 100 .dbError).status = GwOutcome.status .dbError ∧
    (∀ n2 gw2, n2 - 100 < 3 → notify_seen 3 100 n2 gw2 = ⟨false, none, 100, false⟩) :=
  C10_debounce_stamp_before_gateway 3 0 100 .dbError (by decide)
